import Mathlib

/-!
Shallow embedding of the iterative tool-orchestration loop of
`src/agent.py` (`WhileLoopAgent`).

External collaborators are parameters:
* the language model is a scripted function from the round index to either
  an assistant message or a failure (`model : Nat → Except String AssistantMsg`);
  round `i` stands for the i-th `client.chat.completions.create` call;
* each tool's argument pipeline (`json.loads` of the serialized arguments
  followed by construction of the Pydantic parameter model) is folded into
  one fallible function `parseArgs`, and its body into `execute`; a raised
  exception is the `.error` case carrying `str(exception)`;
* the tracing collaborator (`start_span` / `span.log`) is a function from a
  trace event to `Except String Unit`; a `.error` result stands for the
  tracing call raising.  Tracing calls that the Python source performs
  inside the `try:` block of tool dispatch are placed inside the guarded
  region here as well, so a tracing failure there is caught exactly where
  the source catches it, and everywhere else it propagates.

Machine ints: `max_iterations` is a Python `int`, modelled as `Int`
(it can be zero or negative); the iteration counter only ever counts up
from 0 and is a `Nat`.
-/

/-- One part of a structured (list-valued) message content.  `text = some s`
models a dict part carrying a `"text"` key with value `s`; `none` models a
part without a `"text"` key. -/
structure ContentPart where
  text : Option String
deriving DecidableEq, Repr

/-- Message content as returned by the model / stored in the transcript:
either a plain string or a structured list of parts. -/
inductive Content where
  | str (s : String)
  | parts (l : List ContentPart)
deriving DecidableEq, Repr

/-- Python truthiness of a `content` value: `None`, `""` and `[]` are falsy. -/
def contentTruthy : Option Content → Bool
  | none => false
  | some (.str s) => !s.isEmpty
  | some (.parts l) => !l.isEmpty

/-- The final-content extraction of `run`: a plain string is returned as is;
a structured list is flattened by concatenating, in order, the `"text"`
values of exactly the parts that carry a `"text"` key
(`"".join(part.get("text", "") for part in content if "text" in part)`). -/
def contentString : Option Content → String
  | some (.str s) => s
  | some (.parts l) => String.join (l.filterMap ContentPart.text)
  | none => ""

/-- The `function` payload of a tool call: `tool_call.function.name` and
`tool_call.function.arguments` (serialized arguments). -/
structure ToolCallFunction where
  name : String
  arguments : String
deriving DecidableEq, Repr

/-- A model-issued tool-call request (`tool_call.id`, `tool_call.function`). -/
structure ToolCall where
  id : String
  function : ToolCallFunction
deriving DecidableEq, Repr

/-- A transcript message (dict with keys `role`, `content`, `tool_calls`,
`tool_call_id`; absent keys are `none` / `[]`). -/
structure Message where
  role : String
  content : Option Content
  tool_calls : List ToolCall
  tool_call_id : Option String
deriving DecidableEq, Repr

/-- The assistant message returned by one model call
(`response.choices[0].message`): its `content` and its `tool_calls`
(`None` and the empty list are both modelled as `[]`, indistinguishable
under Python truthiness as used by the loop). -/
structure AssistantMsg where
  content : Option Content
  tool_calls : List ToolCall
deriving DecidableEq, Repr

/-- `message.model_dump(exclude_unset=True)` appended to the transcript. -/
def assistantToMessage (m : AssistantMsg) : Message :=
  { role := "assistant", content := m.content, tool_calls := m.tool_calls,
    tool_call_id := none }

/-- A registered tool: its `name`, its argument pipeline `parseArgs`
(`json.loads(tool_call.function.arguments)` followed by
`tool.parameters(**args)`; any exception is `.error` with its message) and
its `execute` coroutine (an exception is `.error` with its message). -/
structure Tool where
  name : String
  parseArgs : String → Except String String
  execute : String → Except String String

/-- One structured trace event, one constructor per `start_span` / `span.log`
call site of `run`. -/
inductive TraceEvent where
  | startSpan (name ty : String)
  | logInput (input : String)
  | logIterationInput (messages : List Message)
  | logIterationOutput (message : AssistantMsg)
  | logToolInput (args : String)
  | logToolOutput (output : String)
  | logError (error : String)
  | logRunOutput (output : String) (total_iterations : Nat)
      (max_iterations_reached : Bool)

/-- The tracing collaborator: a `.error` outcome models the tracing call
raising an exception. -/
structure Tracer where
  call : TraceEvent → Except String Unit

/-- A tracer whose calls always succeed (the behaviour the source relies on). -/
def okTracer : Tracer := ⟨fun _ => .ok ()⟩

/-- A second always-succeeding tracer, definitionally distinct from
`okTracer` (used to witness that any non-failing tracer is interchangeable). -/
def noopTracer : Tracer := ⟨fun _ => Except.ok ()⟩

/-- Insertion into a Python dict: overwrites the value at the first
occurrence of the key, else appends at the end. -/
def insertOverwrite (d : List (String × Tool)) (k : String) (v : Tool) :
    List (String × Tool) :=
  match d with
  | [] => [(k, v)]
  | (k0, v0) :: rest =>
    if k0 = k then (k0, v) :: rest else (k0, v0) :: insertOverwrite rest k v

/-- `self.tools = {tool.name: tool for tool in (options.tools or [])}`:
the registry built by dict comprehension, later entries overwriting
earlier ones with the same name. -/
def buildTools (tools : List Tool) : List (String × Tool) :=
  tools.foldl (fun d tool => insertOverwrite d tool.name tool) []

/-- `self.tools.get(name)`: the value at the key, `none` when absent. -/
def lookupTool : List (String × Tool) → String → Option Tool
  | [], _ => none
  | (k, v) :: rest, name => if k = name then some v else lookupTool rest name

/-- The body of the `try:` block of tool dispatch: parse the arguments, log
them, execute, log the output, and build the tool-result message.  A
`.error` outcome is an exception reaching the `except Exception` handler;
the two tracing calls here are inside the `try:` in the source, so their
failures are caught like any other. -/
def tryExec (tool : Tool) (tracer : Tracer) (tc : ToolCall) :
    Except String Message :=
  match tool.parseArgs tc.function.arguments with
  | .error e => .error e
  | .ok args =>
    match tracer.call (.logToolInput args) with
    | .error e => .error e
    | .ok _ =>
      match tool.execute args with
      | .error e => .error e
      | .ok result =>
        match tracer.call (.logToolOutput result) with
        | .error e => .error e
        | .ok _ =>
          .ok { role := "tool", content := some (.str result),
                tool_calls := [], tool_call_id := some tc.id }

/-- Dispatch of one tool-call request (the body of the `for tool_call` loop):
open a tool span, look the tool up, and produce the tool-result message for
the not-found, error and success branches.  A `.error` outcome is an
uncaught exception (only tracing calls outside the `try:` can produce one). -/
def dispatchOne (tools : List (String × Tool)) (tracer : Tracer)
    (tc : ToolCall) : Except String Message :=
  match tracer.call (.startSpan tc.function.name "tool") with
  | .error e => .error e
  | .ok _ =>
    match lookupTool tools tc.function.name with
    | none =>
      match tracer.call
          (.logError ("Error: Tool " ++ tc.function.name ++ " not found")) with
      | .error e => .error e
      | .ok _ =>
        .ok { role := "tool",
              content := some (.str ("Error: Tool " ++ tc.function.name ++ " not found")),
              tool_calls := [], tool_call_id := some tc.id }
    | some tool =>
      match tryExec tool tracer tc with
      | .ok m => .ok m
      | .error error =>
        match tracer.call (.logError error) with
        | .error e => .error e
        | .ok _ =>
          .ok { role := "tool",
                content := some (.str ("Error executing tool: " ++ error)),
                tool_calls := [], tool_call_id := some tc.id }

/-- The `for tool_call in message.tool_calls` loop: dispatch sequentially in
request order, collecting the tool-result messages (`tool_results`). -/
def dispatchToolCalls (tools : List (String × Tool)) (tracer : Tracer) :
    List ToolCall → Except String (List Message)
  | [] => .ok []
  | tc :: rest =>
    match dispatchOne tools tracer tc with
    | .error e => .error e
    | .ok msg =>
      match dispatchToolCalls tools tracer rest with
      | .error e => .error e
      | .ok msgs => .ok (msg :: msgs)

/-- The `while not done and iterations < self.max_iterations` loop of `run`:
one pass opens the iteration span, logs the transcript, calls the model
(round `iterations`), appends the assistant message verbatim, logs it, and
branches on `tool_calls` / `content`; it returns the final transcript and
iteration counter, or the first uncaught exception. -/
def loop (tools : List (String × Tool)) (maxIter : Int)
    (model : Nat → Except String AssistantMsg) (tracer : Tracer)
    (messages : List Message) (iterations : Nat) (done : Bool) :
    Except String (List Message × Nat) :=
  if h : ¬done ∧ (iterations : Int) < maxIter then
    match tracer.call
        (.startSpan ("iteration_" ++ toString (iterations + 1)) "task") with
    | .error e => .error e
    | .ok _ =>
      match tracer.call (.logIterationInput messages) with
      | .error e => .error e
      | .ok _ =>
        match model iterations with
        | .error e => .error e
        | .ok message =>
          match tracer.call (.logIterationOutput message) with
          | .error e => .error e
          | .ok _ =>
            if message.tool_calls ≠ [] then
              match dispatchToolCalls tools tracer message.tool_calls with
              | .error e => .error e
              | .ok tool_results =>
                loop tools maxIter model tracer
                  ((messages ++ [assistantToMessage message]) ++ tool_results)
                  (iterations + 1) done
            else if contentTruthy message.content then
              loop tools maxIter model tracer
                (messages ++ [assistantToMessage message]) (iterations + 1) true
            else
              loop tools maxIter model tracer
                (messages ++ [assistantToMessage message]) (iterations + 1) done
  else
    .ok (messages, iterations)
termination_by (maxIter - iterations).toNat
decreasing_by
  all_goals
    have h2 := h.2
    omega

/-- Configuration options for the agent (`AgentOptions`).  The API key and
environment-driven endpoint selection only configure the external transport
and are not part of the loop's state. -/
structure AgentOptions where
  model : String := "gpt-4o-mini"
  system_prompt : String := "You are a helpful assistant."
  max_iterations : Int := 10
  tools : List Tool := []

/-- The agent state built by `WhileLoopAgent.__init__`. -/
structure WhileLoopAgent where
  tools : List (String × Tool)
  model : String
  system_prompt : String
  max_iterations : Int

/-- `WhileLoopAgent.__init__` (the registry-building part). -/
def WhileLoopAgent.init (options : AgentOptions) : WhileLoopAgent :=
  { tools := buildTools options.tools, model := options.model,
    system_prompt := options.system_prompt,
    max_iterations := options.max_iterations }

/-- The initial transcript of `run`: the system message followed by the user
message. -/
def initialMessages (system_prompt user_message : String) : List Message :=
  [ { role := "system", content := some (.str system_prompt),
      tool_calls := [], tool_call_id := none },
    { role := "user", content := some (.str user_message),
      tool_calls := [], tool_call_id := none } ]

/-- `run` up to the end of the while loop: root span, input log, initial
transcript, then the loop; yields the final transcript and iteration count. -/
def WhileLoopAgent.runLoop (agent : WhileLoopAgent)
    (model : Nat → Except String AssistantMsg) (tracer : Tracer)
    (user_message : String) : Except String (List Message × Nat) :=
  match tracer.call (.startSpan "agent_run" "task") with
  | .error e => .error e
  | .ok _ =>
    match tracer.call (.logInput user_message) with
    | .error e => .error e
    | .ok _ =>
      loop agent.tools agent.max_iterations model tracer
        (initialMessages agent.system_prompt user_message) 0 false

/-- The fallback sentinel string. -/
def fallbackMessage : String :=
  "Agent reached maximum iterations without completing the task."

/-- The final text returned by `run` together with the logged run metrics. -/
structure RunResult where
  result : String
  total_iterations : Nat
  max_iterations_reached : Bool
deriving DecidableEq, Repr

/-- The exit inspection of `run`: if the last transcript message is an
assistant message with truthy content, return that content (flattening a
structured value); otherwise return the fallback sentinel with
`max_iterations_reached` set. -/
def finalResult (messages : List Message) (iterations : Nat) : RunResult :=
  match messages.getLast? with
  | some last =>
    if last.role == "assistant" && contentTruthy last.content then
      { result := contentString last.content, total_iterations := iterations,
        max_iterations_reached := false }
    else
      { result := fallbackMessage, total_iterations := iterations,
        max_iterations_reached := true }
  | none =>
    { result := fallbackMessage, total_iterations := iterations,
      max_iterations_reached := true }

/-- `WhileLoopAgent.run`: the full entry point.  The returned value carries
the final string and the metrics logged on the root span; an uncaught
exception (a model failure, or a tracing failure outside the guarded
region) is the `.error` case. -/
def WhileLoopAgent.run (agent : WhileLoopAgent)
    (model : Nat → Except String AssistantMsg) (tracer : Tracer)
    (user_message : String) : Except String RunResult :=
  match agent.runLoop model tracer user_message with
  | .error e => .error e
  | .ok (messages, iterations) =>
    let r := finalResult messages iterations
    match tracer.call
        (.logRunOutput r.result r.total_iterations r.max_iterations_reached) with
    | .error e => .error e
    | .ok _ => .ok r

/-- A tracer all of whose calls raise (used to exhibit that the source does
not shield itself from a failing tracing collaborator). -/
def failTracer : Tracer := ⟨fun _ => .error "trace failure"⟩

/-- The per-round structure of the portion of the transcript built by the
loop: a sequence of rounds, each consisting of the assistant message of the
round followed immediately by its tool-result messages — one per tool-call
request, in request order, each a `role := "tool"` message answering the
request with the matching index (in particular a round with no tool calls
contributes no tool-result message, since `Forall₂` forces `results = []`
when `tool_calls = []`). -/
inductive Blocks : List Message → Prop
  | nil : Blocks []
  | round (message : AssistantMsg) (results rest : List Message) :
      List.Forall₂ (fun m tc => m.role = "tool" ∧ m.tool_call_id = some tc.id)
        results message.tool_calls →
      Blocks rest →
      Blocks (assistantToMessage message :: (results ++ rest))

/-- A fixture tool whose argument pipeline always fails (as if `json.loads`
raised), used as a concrete input for witnesses. -/
def badArgsTool : Tool :=
  { name := "echo", parseArgs := fun _ => .error "bad json",
    execute := fun s => .ok s }

@[simp]
theorem okTracer_call (ev : TraceEvent) : okTracer.call ev = .ok () := rfl

theorem tryExec_ok_shape (tool : Tool) (tracer : Tracer) (tc : ToolCall)
    (m : Message) (h : tryExec tool tracer tc = .ok m) :
    m.role = "tool" ∧ m.tool_call_id = some tc.id := by
  unfold tryExec at h
  repeat' split at h
  all_goals simp_all
  subst h
  exact ⟨rfl, rfl⟩

theorem dispatchOne_ok_shape (tools : List (String × Tool)) (tracer : Tracer)
    (tc : ToolCall) (m : Message) (h : dispatchOne tools tracer tc = .ok m) :
    m.role = "tool" ∧ m.tool_call_id = some tc.id := by
  unfold dispatchOne at h
  repeat' split at h
  all_goals first
    | (exact Except.noConfusion h)
    | (rw [Except.ok.injEq] at h; subst h; exact ⟨rfl, rfl⟩)
    | (rw [Except.ok.injEq] at h; subst h;
       exact tryExec_ok_shape _ _ _ _ (by assumption))

theorem dispatchToolCalls_forall2 (tools : List (String × Tool))
    (tracer : Tracer) :
    ∀ (tcs : List ToolCall) (msgs : List Message),
      dispatchToolCalls tools tracer tcs = .ok msgs →
      List.Forall₂ (fun m tc => m.role = "tool" ∧ m.tool_call_id = some tc.id)
        msgs tcs := by
  intro tcs
  induction tcs with
  | nil =>
    intro msgs h
    simp only [dispatchToolCalls, Except.ok.injEq] at h
    subst h
    exact .nil
  | cons tc rest ih =>
    intro msgs h
    unfold dispatchToolCalls at h
    cases hd : dispatchOne tools tracer tc with
    | error e => rw [hd] at h; exact absurd h (by simp)
    | ok m =>
      rw [hd] at h
      cases hr : dispatchToolCalls tools tracer rest with
      | error e => rw [hr] at h; exact absurd h (by simp)
      | ok ms =>
        rw [hr] at h
        rw [Except.ok.injEq] at h
        subst h
        exact .cons (dispatchOne_ok_shape _ _ _ _ hd) (ih _ hr)

theorem dispatchOne_okTracer_ok (tools : List (String × Tool)) (tc : ToolCall) :
    ∃ m, dispatchOne tools okTracer tc = .ok m := by
  unfold dispatchOne
  simp only [okTracer_call]
  cases lookupTool tools tc.function.name with
  | none => exact ⟨_, rfl⟩
  | some tool =>
    cases h : tryExec tool okTracer tc with
    | ok m => exact ⟨m, by simp [h]⟩
    | error e =>
      refine ⟨{ role := "tool",
                content := some (.str ("Error executing tool: " ++ e)),
                tool_calls := [], tool_call_id := some tc.id }, ?_⟩
      simp [h]

theorem dispatchToolCalls_okTracer_ok (tools : List (String × Tool)) :
    ∀ tcs : List ToolCall, ∃ msgs, dispatchToolCalls tools okTracer tcs = .ok msgs := by
  intro tcs
  induction tcs with
  | nil => exact ⟨[], rfl⟩
  | cons tc rest ih =>
    obtain ⟨m, hm⟩ := dispatchOne_okTracer_ok tools tc
    obtain ⟨ms, hms⟩ := ih
    exact ⟨m :: ms, by unfold dispatchToolCalls; rw [hm, hms]⟩

theorem dispatchToolCalls_roles (tools : List (String × Tool)) (tracer : Tracer) :
    ∀ (tcs : List ToolCall) (msgs : List Message),
      dispatchToolCalls tools tracer tcs = .ok msgs →
      ∀ m ∈ msgs, m.role = "tool" := by
  intro tcs msgs h m hm
  have hf := dispatchToolCalls_forall2 tools tracer tcs msgs h
  clear h
  revert hm
  induction hf with
  | nil => intro hm; simp at hm
  | cons hrel htail ih =>
    intro hm
    rcases List.mem_cons.1 hm with h1 | h2
    · exact h1 ▸ hrel.1
    · exact ih h2

theorem lookupTool_insertOverwrite (d : List (String × Tool)) (k : String)
    (v : Tool) (n : String) :
    lookupTool (insertOverwrite d k v) n
      = if k = n then some v else lookupTool d n := by
  induction d with
  | nil => simp [insertOverwrite, lookupTool]
  | cons p rest ih =>
    obtain ⟨k0, v0⟩ := p
    by_cases h0 : k0 = k <;> by_cases hn : k0 = n <;> by_cases hkn : k = n <;>
      simp_all [insertOverwrite, lookupTool]

theorem lookupTool_foldl (n : String) :
    ∀ (ts : List Tool) (d : List (String × Tool)),
      lookupTool (ts.foldl (fun d tool => insertOverwrite d tool.name tool) d) n
        = match ts.reverse.find? (fun t => decide (t.name = n)) with
          | some t => some t
          | none => lookupTool d n := by
  intro ts
  induction ts with
  | nil => intro d; simp
  | cons t rest ih =>
    intro d
    simp only [List.foldl_cons, List.reverse_cons]
    rw [ih, List.find?_append]
    cases hf : rest.reverse.find? (fun t => decide (t.name = n)) with
    | some u => simp [hf]
    | none =>
      by_cases hb : t.name = n <;>
        simp [hf, lookupTool_insertOverwrite, hb, List.find?]

theorem loop_ok_extends_blocks (tools : List (String × Tool)) (maxIter : Int)
    (model : Nat → Except String AssistantMsg) (tracer : Tracer) :
    ∀ (n : Nat) (msgs : List Message) (iters : Nat) (done : Bool)
      (m' : List Message) (i' : Nat),
      (maxIter - iters).toNat ≤ n →
      loop tools maxIter model tracer msgs iters done = .ok (m', i') →
      ∃ suffix, m' = msgs ++ suffix ∧ Blocks suffix := by
  intro n
  induction n with
  | zero =>
    intro msgs iters done m' i' hn hl
    rw [loop.eq_def] at hl
    split at hl
    · rename_i hc
      have := hc.2
      omega
    · rw [Except.ok.injEq, Prod.mk.injEq] at hl
      exact ⟨[], by simp [hl.1], Blocks.nil⟩
  | succ n ih =>
    intro msgs iters done m' i' hn hl
    rw [loop.eq_def] at hl
    split at hl
    · rename_i hc
      split at hl
      · exact Except.noConfusion hl
      · split at hl
        · exact Except.noConfusion hl
        · split at hl
          · exact Except.noConfusion hl
          · rename_i message hmsg
            split at hl
            · exact Except.noConfusion hl
            · split at hl
              · rename_i htc
                split at hl
                · exact Except.noConfusion hl
                · rename_i tool_results hdt
                  obtain ⟨suffix, hs, hb⟩ :=
                    ih _ _ _ _ _ (by have := hc.2; omega) hl
                  refine ⟨assistantToMessage message :: (tool_results ++ suffix),
                    ?_, ?_⟩
                  · rw [hs]; simp
                  · exact Blocks.round message tool_results suffix
                      (dispatchToolCalls_forall2 _ _ _ _ hdt) hb
              · rename_i htc
                have htc0 : message.tool_calls = [] := by simpa using htc
                split at hl
                · obtain ⟨suffix, hs, hb⟩ :=
                    ih _ _ _ _ _ (by have := hc.2; omega) hl
                  refine ⟨assistantToMessage message :: suffix, ?_, ?_⟩
                  · rw [hs]; simp
                  · have hr := Blocks.round message [] suffix
                      (htc0 ▸ List.Forall₂.nil) hb
                    simpa using hr
                · obtain ⟨suffix, hs, hb⟩ :=
                    ih _ _ _ _ _ (by have := hc.2; omega) hl
                  refine ⟨assistantToMessage message :: suffix, ?_, ?_⟩
                  · rw [hs]; simp
                  · have hr := Blocks.round message [] suffix
                      (htc0 ▸ List.Forall₂.nil) hb
                    simpa using hr
    · rw [Except.ok.injEq, Prod.mk.injEq] at hl
      exact ⟨[], by simp [hl.1], Blocks.nil⟩

theorem forall2_roles {results : List Message} {tcs : List ToolCall}
    (hf : List.Forall₂ (fun m tc => m.role = "tool" ∧ m.tool_call_id = some tc.id)
      results tcs) :
    ∀ m ∈ results, m.role = "tool" := by
  induction hf with
  | nil => intro m hm; simp at hm
  | cons hrel htail ih =>
    intro m hm
    rcases List.mem_cons.1 hm with h1 | h2
    · exact h1 ▸ hrel.1
    · exact ih m h2

theorem blocks_roles {l : List Message} (hb : Blocks l) :
    ∀ m ∈ l, m.role = "assistant" ∨ m.role = "tool" := by
  induction hb with
  | nil => intro m hm; simp at hm
  | round message results rest hf hrest ih =>
    intro m hm
    rcases List.mem_cons.1 hm with h1 | h2
    · exact Or.inl (h1 ▸ rfl)
    · rcases List.mem_append.1 h2 with h3 | h4
      · exact Or.inr (forall2_roles hf m h3)
      · exact ih m h4

theorem loop_unfold_stop (tools : List (String × Tool)) (maxIter : Int)
    (model : Nat → Except String AssistantMsg) (tracer : Tracer)
    (msgs : List Message) (iters : Nat) (done : Bool)
    (h : done = true ∨ maxIter ≤ (iters : Int)) :
    loop tools maxIter model tracer msgs iters done = .ok (msgs, iters) := by
  rw [loop.eq_def, dif_neg]
  rcases h with h | h
  · simp [h]
  · intro hc
    exact absurd hc.2 (by omega)

theorem loop_unfold_answer (tools : List (String × Tool)) (maxIter : Int)
    (model : Nat → Except String AssistantMsg) (msgs : List Message)
    (iters : Nat) (done : Bool) (am : AssistantMsg)
    (hc : ¬done = true) (hc2 : (iters : Int) < maxIter)
    (hm : model iters = .ok am)
    (htc : am.tool_calls = []) (hct : contentTruthy am.content = true) :
    loop tools maxIter model okTracer msgs iters done
      = loop tools maxIter model okTracer (msgs ++ [assistantToMessage am])
          (iters + 1) true := by
  rw [loop.eq_def]
  simp [hc, hc2, hm, htc, hct]

theorem loop_unfold_continue (tools : List (String × Tool)) (maxIter : Int)
    (model : Nat → Except String AssistantMsg) (msgs : List Message)
    (iters : Nat) (done : Bool) (am : AssistantMsg)
    (hc : ¬done = true) (hc2 : (iters : Int) < maxIter)
    (hm : model iters = .ok am)
    (htc : am.tool_calls = []) (hct : contentTruthy am.content = false) :
    loop tools maxIter model okTracer msgs iters done
      = loop tools maxIter model okTracer (msgs ++ [assistantToMessage am])
          (iters + 1) done := by
  rw [loop.eq_def]
  simp [hc, hc2, hm, htc, hct]

theorem loop_unfold_tools (tools : List (String × Tool)) (maxIter : Int)
    (model : Nat → Except String AssistantMsg) (msgs : List Message)
    (iters : Nat) (done : Bool) (am : AssistantMsg) (results : List Message)
    (hc : ¬done = true) (hc2 : (iters : Int) < maxIter)
    (hm : model iters = .ok am) (htc : am.tool_calls ≠ [])
    (hd : dispatchToolCalls tools okTracer am.tool_calls = .ok results) :
    loop tools maxIter model okTracer msgs iters done
      = loop tools maxIter model okTracer
          ((msgs ++ [assistantToMessage am]) ++ results) (iters + 1) done := by
  rw [loop.eq_def]
  simp [hc, hc2, hm, htc, hd]

theorem loop_unfold_model_error (tools : List (String × Tool)) (maxIter : Int)
    (model : Nat → Except String AssistantMsg) (msgs : List Message)
    (iters : Nat) (done : Bool) (e : String)
    (hc : ¬done = true) (hc2 : (iters : Int) < maxIter)
    (hm : model iters = .error e) :
    loop tools maxIter model okTracer msgs iters done = .error e := by
  rw [loop.eq_def]
  simp [hc, hc2, hm]

theorem loop_answers (tools : List (String × Tool)) (maxIter : Int)
    (model : Nat → Except String AssistantMsg) :
    ∀ (k : Nat) (msgs : List Message) (iters : Nat),
      (∀ j, j < k → ∃ amj, model (iters + j) = .ok amj ∧
          ¬(amj.tool_calls = [] ∧ contentTruthy amj.content = true)) →
      ∀ am : AssistantMsg, model (iters + k) = .ok am →
        am.tool_calls = [] → contentTruthy am.content = true →
        ((iters : Int) + k < maxIter) →
        ∃ pre, loop tools maxIter model okTracer msgs iters false
          = .ok (pre ++ [assistantToMessage am], iters + k + 1) := by
  intro k
  induction k with
  | zero =>
    intro msgs iters hrounds am ham htc hct hlt
    have ham0 : model iters = .ok am := by simpa using ham
    refine ⟨msgs, ?_⟩
    rw [loop_unfold_answer tools maxIter model msgs iters false am (by simp)
      (by omega) ham0 htc hct]
    rw [loop_unfold_stop _ _ _ _ _ _ _ (Or.inl rfl)]
  | succ k ih =>
    intro msgs iters hrounds am ham htc hct hlt
    obtain ⟨am0, ham0, hna⟩ := hrounds 0 (Nat.succ_pos k)
    have ham0x : model iters = .ok am0 := by simpa using ham0
    have hr : ∀ j, j < k → ∃ amj, model ((iters + 1) + j) = .ok amj ∧
        ¬(amj.tool_calls = [] ∧ contentTruthy amj.content = true) := by
      intro j hj
      obtain ⟨a, haa, hna2⟩ := hrounds (j + 1) (by omega)
      refine ⟨a, ?_, hna2⟩
      rw [show iters + 1 + j = iters + (j + 1) from by omega]
      exact haa
    have ham2 : model ((iters + 1) + k) = .ok am := by
      rw [show iters + 1 + k = iters + (k + 1) from by omega]
      exact ham
    by_cases htc0 : am0.tool_calls = []
    · have hct0 : contentTruthy am0.content = false := by
        cases h : contentTruthy am0.content
        · rfl
        · exact absurd ⟨htc0, h⟩ hna
      rw [loop_unfold_continue tools maxIter model msgs iters false am0
        (by simp) (by omega) ham0x htc0 hct0]
      obtain ⟨pre, hp⟩ := ih (msgs ++ [assistantToMessage am0]) (iters + 1)
        hr am ham2 htc hct (by omega)
      rw [show iters + 1 + k + 1 = iters + (k + 1) + 1 from by omega] at hp
      exact ⟨pre, hp⟩
    · obtain ⟨results, hres⟩ := dispatchToolCalls_okTracer_ok tools am0.tool_calls
      rw [loop_unfold_tools tools maxIter model msgs iters false am0 results
        (by simp) (by omega) ham0x htc0 hres]
      obtain ⟨pre, hp⟩ := ih ((msgs ++ [assistantToMessage am0]) ++ results)
        (iters + 1) hr am ham2 htc hct (by omega)
      rw [show iters + 1 + k + 1 = iters + (k + 1) + 1 from by omega] at hp
      exact ⟨pre, hp⟩

theorem loop_propagates (tools : List (String × Tool)) (maxIter : Int)
    (model : Nat → Except String AssistantMsg) :
    ∀ (k : Nat) (msgs : List Message) (iters : Nat) (e : String),
      (∀ j, j < k → ∃ amj, model (iters + j) = .ok amj ∧
          ¬(amj.tool_calls = [] ∧ contentTruthy amj.content = true)) →
      model (iters + k) = .error e →
      ((iters : Int) + k < maxIter) →
      loop tools maxIter model okTracer msgs iters false = .error e := by
  intro k
  induction k with
  | zero =>
    intro msgs iters e hrounds ham hlt
    have ham0 : model iters = .error e := by simpa using ham
    exact loop_unfold_model_error tools maxIter model msgs iters false e
      (by simp) (by omega) ham0
  | succ k ih =>
    intro msgs iters e hrounds ham hlt
    obtain ⟨am0, ham0, hna⟩ := hrounds 0 (Nat.succ_pos k)
    have ham0x : model iters = .ok am0 := by simpa using ham0
    have hr : ∀ j, j < k → ∃ amj, model ((iters + 1) + j) = .ok amj ∧
        ¬(amj.tool_calls = [] ∧ contentTruthy amj.content = true) := by
      intro j hj
      obtain ⟨a, haa, hna2⟩ := hrounds (j + 1) (by omega)
      refine ⟨a, ?_, hna2⟩
      rw [show iters + 1 + j = iters + (j + 1) from by omega]
      exact haa
    have ham2 : model ((iters + 1) + k) = .error e := by
      rw [show iters + 1 + k = iters + (k + 1) from by omega]
      exact ham
    by_cases htc0 : am0.tool_calls = []
    · have hct0 : contentTruthy am0.content = false := by
        cases h : contentTruthy am0.content
        · rfl
        · exact absurd ⟨htc0, h⟩ hna
      rw [loop_unfold_continue tools maxIter model msgs iters false am0
        (by simp) (by omega) ham0x htc0 hct0]
      exact ih (msgs ++ [assistantToMessage am0]) (iters + 1) e hr ham2 (by omega)
    · obtain ⟨results, hres⟩ := dispatchToolCalls_okTracer_ok tools am0.tool_calls
      rw [loop_unfold_tools tools maxIter model msgs iters false am0 results
        (by simp) (by omega) ham0x htc0 hres]
      exact ih ((msgs ++ [assistantToMessage am0]) ++ results) (iters + 1) e
        hr ham2 (by omega)

theorem loop_okTracer_error (tools : List (String × Tool)) (maxIter : Int)
    (model : Nat → Except String AssistantMsg) :
    ∀ (n : Nat) (msgs : List Message) (iters : Nat) (done : Bool) (e : String),
      (maxIter - iters).toNat ≤ n →
      loop tools maxIter model okTracer msgs iters done = .error e →
      ∃ j, model j = .error e := by
  intro n
  induction n with
  | zero =>
    intro msgs iters done e hn hl
    rw [loop_unfold_stop _ _ _ _ _ _ _ (Or.inr (by omega))] at hl
    exact Except.noConfusion hl
  | succ n ih =>
    intro msgs iters done e hn hl
    rw [loop.eq_def] at hl
    split at hl
    · rename_i hc
      split at hl
      · rename_i e0 heq
        simp at heq
      · split at hl
        · rename_i e0 heq
          simp at heq
        · split at hl
          · rename_i e0 heq
            rw [Except.error.injEq] at hl
            exact ⟨iters, hl ▸ heq⟩
          · rename_i message hmsg
            split at hl
            · rename_i e0 heq
              simp at heq
            · split at hl
              · split at hl
                · rename_i e0 heq
                  obtain ⟨ms, hms⟩ :=
                    dispatchToolCalls_okTracer_ok tools message.tool_calls
                  rw [hms] at heq
                  exact Except.noConfusion heq
                · exact ih _ _ _ _ (by have := hc.2; omega) hl
              · split at hl
                · exact ih _ _ _ _ (by have := hc.2; omega) hl
                · exact ih _ _ _ _ (by have := hc.2; omega) hl
    · exact Except.noConfusion hl

theorem loop_okTracer_total (tools : List (String × Tool)) (maxIter : Int)
    (model : Nat → Except String AssistantMsg)
    (hm : ∀ j, ∃ am, model j = .ok am) :
    ∀ (n : Nat) (msgs : List Message) (iters : Nat) (done : Bool),
      (maxIter - iters).toNat ≤ n →
      ∃ res, loop tools maxIter model okTracer msgs iters done = .ok res := by
  intro n
  induction n with
  | zero =>
    intro msgs iters done hn
    exact ⟨(msgs, iters), loop_unfold_stop _ _ _ _ _ _ _ (Or.inr (by omega))⟩
  | succ n ih =>
    intro msgs iters done hn
    by_cases hd : done = true
    · exact ⟨(msgs, iters), loop_unfold_stop _ _ _ _ _ _ _ (Or.inl hd)⟩
    by_cases hlt : (iters : Int) < maxIter
    case neg =>
      exact ⟨(msgs, iters), loop_unfold_stop _ _ _ _ _ _ _ (Or.inr (by omega))⟩
    case pos =>
      obtain ⟨am, ham⟩ := hm iters
      by_cases htc : am.tool_calls = []
      · cases hct : contentTruthy am.content
        · rw [loop_unfold_continue _ _ _ _ _ _ _ hd hlt ham htc hct]
          exact ih _ _ _ (by omega)
        · rw [loop_unfold_answer _ _ _ _ _ _ _ hd hlt ham htc hct]
          exact ih _ _ _ (by omega)
      · obtain ⟨results, hres⟩ := dispatchToolCalls_okTracer_ok tools am.tool_calls
        rw [loop_unfold_tools _ _ _ _ _ _ _ _ hd hlt ham htc hres]
        exact ih _ _ _ (by omega)

theorem loop_exhausts (tools : List (String × Tool)) (maxIter : Int)
    (model : Nat → Except String AssistantMsg)
    (hm : ∀ j, ∃ amj, model j = .ok amj ∧ amj.tool_calls ≠ []) :
    ∀ (n : Nat) (msgs : List Message) (iters : Nat),
      (maxIter - iters).toNat ≤ n →
      ∃ m', loop tools maxIter model okTracer msgs iters false
          = .ok (m', if (iters : Int) < maxIter then maxIter.toNat else iters)
        ∧ (m' = msgs ∨ ∃ pre last, m' = pre ++ [last] ∧ last.role = "tool") := by
  intro n
  induction n with
  | zero =>
    intro msgs iters hn
    refine ⟨msgs, ?_, Or.inl rfl⟩
    rw [if_neg (by omega), loop_unfold_stop _ _ _ _ _ _ _ (Or.inr (by omega))]
  | succ n ih =>
    intro msgs iters hn
    by_cases hlt : (iters : Int) < maxIter
    case neg =>
      refine ⟨msgs, ?_, Or.inl rfl⟩
      rw [if_neg hlt, loop_unfold_stop _ _ _ _ _ _ _ (Or.inr (by omega))]
    case pos =>
      obtain ⟨am, ham, htc⟩ := hm iters
      obtain ⟨results, hres⟩ := dispatchToolCalls_okTracer_ok tools am.tool_calls
      have hres_ne : results ≠ [] := by
        intro h0
        subst h0
        have hf := dispatchToolCalls_forall2 _ _ _ _ hres
        rw [List.forall₂_nil_left_iff] at hf
        exact htc hf
      rw [loop_unfold_tools tools maxIter model msgs iters false am results
        (by simp) hlt ham htc hres]
      obtain ⟨m', hloop, hshape⟩ :=
        ih ((msgs ++ [assistantToMessage am]) ++ results) (iters + 1) (by omega)
      have hcount : (if ((iters + 1 : Nat) : Int) < maxIter
          then maxIter.toNat else iters + 1) = maxIter.toNat := by
        split <;> omega
      refine ⟨m', ?_, ?_⟩
      · rw [hloop, hcount, if_pos hlt]
      · rcases hshape with h1 | h2
        · right
          have hsplit : results.dropLast ++ [results.getLast hres_ne] = results :=
            List.dropLast_append_getLast hres_ne
          refine ⟨(msgs ++ [assistantToMessage am]) ++ results.dropLast,
            results.getLast hres_ne, ?_, ?_⟩
          · rw [h1]
            conv_lhs => rw [← hsplit]
            simp
          · exact dispatchToolCalls_roles _ _ _ _ hres _
              (List.getLast_mem hres_ne)
        · exact Or.inr h2

theorem runLoop_okTracer (agent : WhileLoopAgent)
    (model : Nat → Except String AssistantMsg) (user_message : String) :
    agent.runLoop model okTracer user_message
      = loop agent.tools agent.max_iterations model okTracer
          (initialMessages agent.system_prompt user_message) 0 false := rfl

theorem run_okTracer (agent : WhileLoopAgent)
    (model : Nat → Except String AssistantMsg) (user_message : String)
    (m : List Message) (i : Nat)
    (h : agent.runLoop model okTracer user_message = .ok (m, i)) :
    agent.run model okTracer user_message = .ok (finalResult m i) := by
  unfold WhileLoopAgent.run
  rw [h]
  rfl

theorem run_okTracer_error (agent : WhileLoopAgent)
    (model : Nat → Except String AssistantMsg) (user_message : String)
    (e : String) (h : agent.runLoop model okTracer user_message = .error e) :
    agent.run model okTracer user_message = .error e := by
  unfold WhileLoopAgent.run
  rw [h]

theorem finalResult_assistant (pre : List Message) (am : AssistantMsg)
    (iters : Nat) (hct : contentTruthy am.content = true) :
    finalResult (pre ++ [assistantToMessage am]) iters
      = ⟨contentString am.content, iters, false⟩ := by
  unfold finalResult
  rw [List.getLast?_concat]
  simp [assistantToMessage, hct]

theorem finalResult_not_assistant (msgs : List Message) (last : Message)
    (iters : Nat) (h : msgs.getLast? = some last)
    (hrole : last.role ≠ "assistant") :
    finalResult msgs iters = ⟨fallbackMessage, iters, true⟩ := by
  unfold finalResult
  rw [h]
  have hb : (last.role == "assistant") = false := by
    rw [beq_eq_false_iff_ne]
    exact hrole
  simp [hb]

/-- C1: for every scripted sequence of model responses whose round `k` is the
first to return truthy textual content and no tool-call requests (all earlier
rounds either request tool calls or are empty continuations), and whose round
`k` fits in the budget, `run` returns exactly that content — `contentString`
concatenating, in order, the text-bearing parts when the content is a
structured multi-part value — and the total iteration count `k + 1` equals
the number of model-call rounds consumed (one model call per iteration). -/
theorem run_returns_first_answer (tools : List (String × Tool))
    (mname system_prompt user_message : String) (maxIter : Int)
    (model : Nat → Except String AssistantMsg) (k : Nat) (am : AssistantMsg)
    (hrounds : ∀ j, j < k → ∃ amj, model j = .ok amj ∧
        ¬(amj.tool_calls = [] ∧ contentTruthy amj.content = true))
    (ham : model k = .ok am) (htc : am.tool_calls = [])
    (hct : contentTruthy am.content = true) (hk : (k : Int) < maxIter) :
    WhileLoopAgent.run ⟨tools, mname, system_prompt, maxIter⟩ model okTracer
        user_message
      = .ok ⟨contentString am.content, k + 1, false⟩ := by
  have hr0 : ∀ j, j < k → ∃ amj, model (0 + j) = .ok amj ∧
      ¬(amj.tool_calls = [] ∧ contentTruthy amj.content = true) := by
    simpa using hrounds
  have ham0 : model (0 + k) = .ok am := by simpa using ham
  obtain ⟨pre, hp⟩ := loop_answers tools maxIter model k
    (initialMessages system_prompt user_message) 0 hr0 am ham0 htc hct
    (by omega)
  have hrl : WhileLoopAgent.runLoop ⟨tools, mname, system_prompt, maxIter⟩
      model okTracer user_message
      = .ok (pre ++ [assistantToMessage am], 0 + k + 1) := by
    rw [runLoop_okTracer]
    exact hp
  rw [run_okTracer _ _ _ _ _ hrl, finalResult_assistant pre am (0 + k + 1) hct]
  simp

/-- C1 witness: a two-round script (round 0 requests a tool call, round 1
answers "done") makes `run` return "done" with 2 iterations. -/
theorem run_returns_first_answer_witness :
    WhileLoopAgent.run ⟨[], "gpt-4o-mini", "sp", 5⟩
        (fun j => if j = 0
          then .ok ⟨none, [⟨"call_1", ⟨"echo", ""⟩⟩]⟩
          else .ok ⟨some (.str "done"), []⟩)
        okTracer "u"
      = .ok ⟨"done", 2, false⟩ := by
  exact run_returns_first_answer [] "gpt-4o-mini" "sp" "u" 5 _ 1
    ⟨some (.str "done"), []⟩
    (by
      intro j hj
      have hj0 : j = 0 := by omega
      subst hj0
      exact ⟨⟨none, [⟨"call_1", ⟨"echo", ""⟩⟩]⟩, rfl, by simp⟩)
    rfl rfl (by decide) (by norm_num)

/-- C2: if every scripted model response succeeds and requests at least one
tool call, `run` returns the fallback sentinel with
`max_iterations_reached = true` and a total iteration count of exactly
`max_iterations` (clamped at zero, so the model-call rounds — one per
iteration — never exceed `max_iterations`). -/
theorem run_exhausts_budget (tools : List (String × Tool))
    (mname system_prompt user_message : String) (maxIter : Int)
    (model : Nat → Except String AssistantMsg)
    (hm : ∀ j, ∃ amj, model j = .ok amj ∧ amj.tool_calls ≠ []) :
    WhileLoopAgent.run ⟨tools, mname, system_prompt, maxIter⟩ model okTracer
        user_message
      = .ok ⟨fallbackMessage, maxIter.toNat, true⟩ := by
  obtain ⟨mfin, hloop, hshape⟩ := loop_exhausts tools maxIter model hm
    (maxIter - 0).toNat (initialMessages system_prompt user_message) 0
    (le_refl _)
  have hcount : (if ((0 : Nat) : Int) < maxIter then maxIter.toNat else 0)
      = maxIter.toNat := by
    split <;> omega
  rw [hcount] at hloop
  have hrl : WhileLoopAgent.runLoop ⟨tools, mname, system_prompt, maxIter⟩
      model okTracer user_message = .ok (mfin, maxIter.toNat) := by
    rw [runLoop_okTracer]
    exact hloop
  rw [run_okTracer _ _ _ _ _ hrl]
  rcases hshape with h1 | h2
  · rw [h1, finalResult_not_assistant _
      { role := "user", content := some (.str user_message),
        tool_calls := [], tool_call_id := none } _
      (by simp [initialMessages]) (by simp)]
  · obtain ⟨pre, last, hm', hrole⟩ := h2
    rw [hm', finalResult_not_assistant _ last _ (List.getLast?_concat _)
      (by rw [hrole]; simp)]

/-- C2 witness: a script that always requests a tool call, with a budget of
2, yields the fallback sentinel, 2 iterations, and the flag set. -/
theorem run_exhausts_budget_witness :
    WhileLoopAgent.run ⟨[], "gpt-4o-mini", "sp", 2⟩
        (fun _ => .ok ⟨none, [⟨"call_1", ⟨"echo", ""⟩⟩]⟩) okTracer "u"
      = .ok ⟨fallbackMessage, 2, true⟩ := by
  exact run_exhausts_budget [] "gpt-4o-mini" "sp" "u" 2 _
    (fun j => ⟨⟨none, [⟨"call_1", ⟨"echo", ""⟩⟩]⟩, rfl, by simp⟩)

/-- C10: with a zero or negative `max_iterations` the while loop is never
entered: no model call is made (the conclusion holds for every `model`
uniformly), no tool is dispatched, the transcript stays exactly the initial
system and user messages, and `run` returns the fallback sentinel (with zero
iterations and the exhaustion flag set, since the exit inspection sees the
user message as the last transcript entry). -/
theorem run_nonpositive_budget (tools : List (String × Tool))
    (mname system_prompt user_message : String) (maxIter : Int)
    (model : Nat → Except String AssistantMsg) (h : maxIter ≤ 0) :
    WhileLoopAgent.runLoop ⟨tools, mname, system_prompt, maxIter⟩ model
        okTracer user_message
      = .ok (initialMessages system_prompt user_message, 0)
    ∧ WhileLoopAgent.run ⟨tools, mname, system_prompt, maxIter⟩ model
        okTracer user_message
      = .ok ⟨fallbackMessage, 0, true⟩ := by
  have hrl : WhileLoopAgent.runLoop ⟨tools, mname, system_prompt, maxIter⟩
      model okTracer user_message
      = .ok (initialMessages system_prompt user_message, 0) := by
    rw [runLoop_okTracer]
    exact loop_unfold_stop _ _ _ _ _ _ _
      (Or.inr (by show maxIter ≤ ((0 : Nat) : Int); omega))
  refine ⟨hrl, ?_⟩
  rw [run_okTracer _ _ _ _ _ hrl]
  rw [finalResult_not_assistant _
    { role := "user", content := some (.str user_message),
      tool_calls := [], tool_call_id := none } _
    (by simp [initialMessages]) (by simp)]

/-- C10 witness: at `max_iterations = 0` the transcript is untouched and the
fallback sentinel is returned. -/
theorem run_nonpositive_budget_witness :
    WhileLoopAgent.runLoop ⟨[], "gpt-4o-mini", "sp", 0⟩
        (fun _ => .ok ⟨some (.str "hi"), []⟩) okTracer "u"
      = .ok (initialMessages "sp" "u", 0)
    ∧ WhileLoopAgent.run ⟨[], "gpt-4o-mini", "sp", 0⟩
        (fun _ => .ok ⟨some (.str "hi"), []⟩) okTracer "u"
      = .ok ⟨fallbackMessage, 0, true⟩ :=
  run_nonpositive_budget [] "gpt-4o-mini" "sp" "u" 0 _ (by norm_num)

/-- C5: a failure of the language-model call is the only failure the caller
of `run` can observe, and it propagates uncaught.  Three parts: (1) whenever
`run` fails, the failure is one returned by a model call; (2) if the rounds
before `k` all continue and the model fails at round `k` within the budget,
`run` fails with exactly that error; (3) if the model never fails, `run`
returns normally (tool and dispatch failures are all recovered). -/
theorem run_fails_only_on_model_failure (tools : List (String × Tool))
    (mname system_prompt user_message : String) (maxIter : Int)
    (model : Nat → Except String AssistantMsg) :
    (∀ e, WhileLoopAgent.run ⟨tools, mname, system_prompt, maxIter⟩ model
        okTracer user_message = .error e → ∃ j, model j = .error e)
    ∧ (∀ (k : Nat) (e : String),
        (∀ j, j < k → ∃ amj, model j = .ok amj ∧
            ¬(amj.tool_calls = [] ∧ contentTruthy amj.content = true)) →
        model k = .error e → (k : Int) < maxIter →
        WhileLoopAgent.run ⟨tools, mname, system_prompt, maxIter⟩ model
          okTracer user_message = .error e)
    ∧ ((∀ j, ∃ am, model j = .ok am) →
        ∃ r, WhileLoopAgent.run ⟨tools, mname, system_prompt, maxIter⟩ model
          okTracer user_message = .ok r) := by
  refine ⟨?_, ?_, ?_⟩
  · intro e he
    cases h : WhileLoopAgent.runLoop ⟨tools, mname, system_prompt, maxIter⟩
        model okTracer user_message with
    | ok p =>
      obtain ⟨m, i⟩ := p
      rw [run_okTracer _ _ _ _ _ h] at he
      exact Except.noConfusion he
    | error e0 =>
      rw [run_okTracer_error _ _ _ _ h, Except.error.injEq] at he
      subst he
      rw [runLoop_okTracer] at h
      exact loop_okTracer_error _ _ _ ((maxIter - 0).toNat) _ _ _ _
        (le_refl _) h
  · intro k e hrounds ham hk
    have hr0 : ∀ j, j < k → ∃ amj, model (0 + j) = .ok amj ∧
        ¬(amj.tool_calls = [] ∧ contentTruthy amj.content = true) := by
      simpa using hrounds
    have ham0 : model (0 + k) = .error e := by simpa using ham
    have hl := loop_propagates tools maxIter model k
      (initialMessages system_prompt user_message) 0 e hr0 ham0 (by omega)
    exact run_okTracer_error _ _ _ _ (by rw [runLoop_okTracer]; exact hl)
  · intro hm
    obtain ⟨⟨m, i⟩, hl⟩ := loop_okTracer_total tools maxIter model hm
      ((maxIter - 0).toNat) (initialMessages system_prompt user_message) 0
      false (le_refl _)
    exact ⟨finalResult m i,
      run_okTracer _ _ _ _ _ (by rw [runLoop_okTracer]; exact hl)⟩

/-- C5 witness: a model failing immediately with "boom" makes `run` fail
with exactly "boom" (second part of the theorem, at round 0, budget 1). -/
theorem run_fails_only_on_model_failure_witness :
    WhileLoopAgent.run ⟨[], "gpt-4o-mini", "sp", 1⟩
        (fun _ => .error "boom") okTracer "u"
      = .error "boom" :=
  (run_fails_only_on_model_failure [] "gpt-4o-mini" "sp" "u" 1
      (fun _ => .error "boom")).2.1
    0 "boom" (by intro j hj; omega) rfl (by norm_num)

/-- C3: dispatching a tool-call request whose name is absent from the
registry yields the fixed "tool not found" tool-result message containing
the requested name — returned normally (`.ok`), so no exception escapes —
and dispatching the rest of the round proceeds unchanged, the loop treating
the result like any other and continuing with the next round. -/
theorem dispatch_tool_not_found (tools : List (String × Tool)) (tc : ToolCall)
    (rest : List ToolCall) (h : lookupTool tools tc.function.name = none) :
    dispatchOne tools okTracer tc
      = .ok { role := "tool",
              content := some (.str
                ("Error: Tool " ++ tc.function.name ++ " not found")),
              tool_calls := [], tool_call_id := some tc.id }
    ∧ ∃ msgs, dispatchToolCalls tools okTracer rest = .ok msgs
        ∧ dispatchToolCalls tools okTracer (tc :: rest)
          = .ok ({ role := "tool",
                   content := some (.str
                     ("Error: Tool " ++ tc.function.name ++ " not found")),
                   tool_calls := [], tool_call_id := some tc.id } :: msgs) := by
  have h1 : dispatchOne tools okTracer tc
      = .ok { role := "tool",
              content := some (.str
                ("Error: Tool " ++ tc.function.name ++ " not found")),
              tool_calls := [], tool_call_id := some tc.id } := by
    unfold dispatchOne
    simp [h]
  obtain ⟨msgs, hmsgs⟩ := dispatchToolCalls_okTracer_ok tools rest
  refine ⟨h1, msgs, hmsgs, ?_⟩
  unfold dispatchToolCalls
  rw [h1, hmsgs]

/-- C3 witness: the request `missing` against an empty registry produces the
not-found tool-result message and the round goes on. -/
theorem dispatch_tool_not_found_witness :
    dispatchOne [] okTracer ⟨"id1", ⟨"missing", ""⟩⟩
      = .ok { role := "tool",
              content := some (.str
                ("Error: Tool " ++ "missing" ++ " not found")),
              tool_calls := [], tool_call_id := some "id1" }
    ∧ ∃ msgs, dispatchToolCalls [] okTracer [] = .ok msgs
        ∧ dispatchToolCalls [] okTracer [⟨"id1", ⟨"missing", ""⟩⟩]
          = .ok ({ role := "tool",
                   content := some (.str
                     ("Error: Tool " ++ "missing" ++ " not found")),
                   tool_calls := [], tool_call_id := some "id1" } :: msgs) :=
  dispatch_tool_not_found [] ⟨"id1", ⟨"missing", ""⟩⟩ [] rfl

/-- C4: when the tool is found but its argument pipeline (deserialization or
schema validation) fails or its `execute` raises, dispatch catches the
failure and yields the "Error executing tool: msg" tool-result message —
returned normally (`.ok`), never propagated to the caller — and the
remaining requests of the round are still dispatched in order. -/
theorem dispatch_tool_error_recovered (tools : List (String × Tool))
    (tool : Tool) (tc : ToolCall) (rest : List ToolCall) (e : String)
    (hfound : lookupTool tools tc.function.name = some tool)
    (herr : tool.parseArgs tc.function.arguments = .error e
      ∨ ∃ args, tool.parseArgs tc.function.arguments = .ok args
          ∧ tool.execute args = .error e) :
    dispatchOne tools okTracer tc
      = .ok { role := "tool",
              content := some (.str ("Error executing tool: " ++ e)),
              tool_calls := [], tool_call_id := some tc.id }
    ∧ ∃ msgs, dispatchToolCalls tools okTracer rest = .ok msgs
        ∧ dispatchToolCalls tools okTracer (tc :: rest)
          = .ok ({ role := "tool",
                   content := some (.str ("Error executing tool: " ++ e)),
                   tool_calls := [], tool_call_id := some tc.id } :: msgs) := by
  have htry : tryExec tool okTracer tc = .error e := by
    unfold tryExec
    rcases herr with h1 | ⟨args, h1, h2⟩
    · rw [h1]
    · rw [h1]
      simp [h2]
  have h1 : dispatchOne tools okTracer tc
      = .ok { role := "tool",
              content := some (.str ("Error executing tool: " ++ e)),
              tool_calls := [], tool_call_id := some tc.id } := by
    unfold dispatchOne
    simp [hfound, htry]
  obtain ⟨msgs, hmsgs⟩ := dispatchToolCalls_okTracer_ok tools rest
  refine ⟨h1, msgs, hmsgs, ?_⟩
  unfold dispatchToolCalls
  rw [h1, hmsgs]

/-- C4 witness: `badArgsTool` (whose pipeline always raises "bad json")
produces the executing-error tool-result message and the round goes on. -/
theorem dispatch_tool_error_recovered_witness :
    dispatchOne [("echo", badArgsTool)] okTracer ⟨"id1", ⟨"echo", "oops"⟩⟩
      = .ok { role := "tool",
              content := some (.str ("Error executing tool: " ++ "bad json")),
              tool_calls := [], tool_call_id := some "id1" }
    ∧ ∃ msgs, dispatchToolCalls [("echo", badArgsTool)] okTracer [] = .ok msgs
        ∧ dispatchToolCalls [("echo", badArgsTool)] okTracer
            [⟨"id1", ⟨"echo", "oops"⟩⟩]
          = .ok ({ role := "tool",
                   content := some (.str
                     ("Error executing tool: " ++ "bad json")),
                   tool_calls := [], tool_call_id := some "id1" } :: msgs) :=
  dispatch_tool_error_recovered [("echo", badArgsTool)] badArgsTool
    ⟨"id1", ⟨"echo", "oops"⟩⟩ [] "bad json" (by simp [lookupTool])
    (Or.inl rfl)

/-- C8: building the registry never raises (it is a total function on any
tool list, duplicate names included) and maps each name to the last tool
registered with that name; lookup returns exactly that tool, and `none` for
a name never registered (`find?` over the reversed registration list is the
last-wins resolution). -/
theorem registry_last_registration_wins (options : AgentOptions) (n : String) :
    lookupTool (WhileLoopAgent.init options).tools n
      = options.tools.reverse.find? (fun t => decide (t.name = n)) := by
  show lookupTool (buildTools options.tools) n = _
  unfold buildTools
  rw [lookupTool_foldl]
  cases hf : options.tools.reverse.find? (fun t => decide (t.name = n)) <;>
    simp [lookupTool]

/-- C9: every tool-result message produced by dispatch — in the not-found,
error and success branches alike, and under an arbitrary tracer — carries
`role = "tool"` and a `tool_call_id` equal to the id of the request it
answers. -/
theorem tool_results_answer_their_request (tools : List (String × Tool))
    (tracer : Tracer) (tc : ToolCall) (m : Message)
    (h : dispatchOne tools tracer tc = .ok m) :
    m.tool_call_id = some tc.id ∧ m.role = "tool" := by
  have hs := dispatchOne_ok_shape tools tracer tc m h
  exact ⟨hs.2, hs.1⟩

/-- C9 witness: the not-found branch at request id `id1` tags its result
with `tool_call_id = some "id1"`. -/
theorem tool_results_answer_their_request_witness :
    (({ role := "tool",
        content := some (.str ("Error: Tool " ++ "missing" ++ " not found")),
        tool_calls := [], tool_call_id := some "id1" } : Message).tool_call_id
      = some "id1")
    ∧ (({ role := "tool",
          content := some (.str ("Error: Tool " ++ "missing" ++ " not found")),
          tool_calls := [], tool_call_id := some "id1" } : Message).role
        = "tool") :=
  tool_results_answer_their_request [] okTracer ⟨"id1", ⟨"missing", ""⟩⟩ _ rfl

/-- C6: in every completed run (for any scripted model, any tracer and any
budget — intermediate reachable states are the completed states of runs with
smaller budgets), the transcript is the initial system message and user
message — exactly one of each, since everything after them is
assistant- or tool-role — followed, append-only, by per-round blocks
(`Blocks`): each round's assistant message immediately followed by its
tool-result messages, one per tool-call request of that assistant message,
in request order, each answering the request with the matching index. -/
theorem runLoop_transcript_invariant (agent : WhileLoopAgent)
    (model : Nat → Except String AssistantMsg) (tracer : Tracer)
    (user_message : String) (msgs : List Message) (iters : Nat)
    (h : agent.runLoop model tracer user_message = .ok (msgs, iters)) :
    ∃ suffix,
      msgs = { role := "system", content := some (.str agent.system_prompt),
               tool_calls := [], tool_call_id := none }
        :: { role := "user", content := some (.str user_message),
             tool_calls := [], tool_call_id := none }
        :: suffix
      ∧ Blocks suffix
      ∧ ∀ m ∈ suffix, m.role = "assistant" ∨ m.role = "tool" := by
  unfold WhileLoopAgent.runLoop at h
  split at h
  · exact Except.noConfusion h
  · split at h
    · exact Except.noConfusion h
    · obtain ⟨suffix, hs, hb⟩ := loop_ok_extends_blocks agent.tools
        agent.max_iterations model tracer ((agent.max_iterations - 0).toNat)
        _ 0 false msgs iters (le_refl _) h
      refine ⟨suffix, ?_, hb, blocks_roles hb⟩
      rw [hs]
      rfl

/-- C6 witness: a one-round answering script yields the transcript
system, user, assistant — the suffix being a single block with no
tool results. -/
theorem runLoop_transcript_invariant_witness :
    ∃ suffix,
      ([{ role := "system", content := some (.str "sp"),
          tool_calls := [], tool_call_id := none },
        { role := "user", content := some (.str "u"),
          tool_calls := [], tool_call_id := none },
        { role := "assistant", content := some (.str "hi"),
          tool_calls := [], tool_call_id := none }] : List Message)
      = { role := "system", content := some (.str "sp"),
          tool_calls := [], tool_call_id := none }
        :: { role := "user", content := some (.str "u"),
             tool_calls := [], tool_call_id := none }
        :: suffix
      ∧ Blocks suffix
      ∧ ∀ m ∈ suffix, m.role = "assistant" ∨ m.role = "tool" := by
  refine runLoop_transcript_invariant ⟨[], "gpt-4o-mini", "sp", 1⟩
    (fun _ => .ok ⟨some (.str "hi"), []⟩) okTracer "u" _ 1 ?_
  rw [runLoop_okTracer]
  rw [loop_unfold_answer _ _ _ _ _ _ ⟨some (.str "hi"), []⟩ (by simp)
    (by norm_num) rfl rfl (by decide)]
  rw [loop_unfold_stop _ _ _ _ _ _ _ (Or.inl rfl)]
  rfl

theorem tryExec_tracer_irrelevant (tracer : Tracer)
    (h : ∀ ev, tracer.call ev = .ok ()) (tool : Tool) (tc : ToolCall) :
    tryExec tool tracer tc = tryExec tool okTracer tc := by
  unfold tryExec
  simp only [h, okTracer_call]

theorem dispatchOne_tracer_irrelevant (tracer : Tracer)
    (h : ∀ ev, tracer.call ev = .ok ()) (tools : List (String × Tool))
    (tc : ToolCall) :
    dispatchOne tools tracer tc = dispatchOne tools okTracer tc := by
  unfold dispatchOne
  simp only [h, okTracer_call, tryExec_tracer_irrelevant tracer h]

theorem dispatchToolCalls_tracer_irrelevant (tracer : Tracer)
    (h : ∀ ev, tracer.call ev = .ok ()) (tools : List (String × Tool)) :
    ∀ tcs : List ToolCall,
      dispatchToolCalls tools tracer tcs = dispatchToolCalls tools okTracer tcs := by
  intro tcs
  induction tcs with
  | nil => rfl
  | cons tc rest ih =>
    unfold dispatchToolCalls
    rw [dispatchOne_tracer_irrelevant tracer h, ih]

theorem loop_tracer_irrelevant (tools : List (String × Tool)) (maxIter : Int)
    (model : Nat → Except String AssistantMsg) (tracer : Tracer)
    (h : ∀ ev, tracer.call ev = .ok ()) :
    ∀ (n : Nat) (msgs : List Message) (iters : Nat) (done : Bool),
      (maxIter - iters).toNat ≤ n →
      loop tools maxIter model tracer msgs iters done
        = loop tools maxIter model okTracer msgs iters done := by
  intro n
  induction n with
  | zero =>
    intro msgs iters done hn
    rw [loop_unfold_stop _ _ _ _ _ _ _ (Or.inr (by omega)),
        loop_unfold_stop _ _ _ _ _ _ _ (Or.inr (by omega))]
  | succ n ih =>
    intro msgs iters done hn
    by_cases hc : ¬done = true ∧ (iters : Int) < maxIter
    case neg =>
      have hstop : done = true ∨ maxIter ≤ (iters : Int) := by
        by_cases hd : done = true
        · exact Or.inl hd
        · right
          by_contra h2
          push_neg at h2
          exact hc ⟨hd, h2⟩
      rw [loop_unfold_stop _ _ _ _ _ _ _ hstop,
          loop_unfold_stop _ _ _ _ _ _ _ hstop]
    case pos =>
      rw [loop.eq_def]
      conv_rhs => rw [loop.eq_def]
      rw [dif_pos hc, dif_pos hc]
      simp only [h, okTracer_call]
      cases hmod : model iters with
      | error e => rfl
      | ok message =>
        dsimp only
        by_cases htc : message.tool_calls = []
        case pos =>
          rw [if_neg (by simp [htc])]
          conv_rhs => rw [if_neg (by simp [htc])]
          cases hct : contentTruthy message.content
          · rw [if_neg (by simp), if_neg (by simp)]
            exact ih _ _ _ (by have := hc.2; omega)
          · rw [if_pos rfl, if_pos rfl]
            exact ih _ _ _ (by have := hc.2; omega)
        case neg =>
          rw [if_pos htc]
          conv_rhs => rw [if_pos htc]
          rw [dispatchToolCalls_tracer_irrelevant tracer h]
          cases hd : dispatchToolCalls tools okTracer message.tool_calls with
          | error e => rfl
          | ok results => exact ih _ _ _ (by have := hc.2; omega)

/-- C7 counterexample: the claim quantifies over every behaviour of the
tracing collaborator, including calls that raise — but the source does not
guard its tracing calls: with a tracer whose calls raise, `run` propagates
the tracing failure (raised at the very first `start_span`) instead of
returning the answer it returns under a non-failing tracer, so the control
flow and returned value are not the same. -/
theorem tracer_failure_alters_run :
    WhileLoopAgent.run ⟨[], "gpt-4o-mini", "sp", 1⟩
        (fun _ => .ok ⟨some (.str "hi"), []⟩) failTracer "u"
      = .error "trace failure"
    ∧ WhileLoopAgent.run ⟨[], "gpt-4o-mini", "sp", 1⟩
        (fun _ => .ok ⟨some (.str "hi"), []⟩) okTracer "u"
      = .ok ⟨"hi", 1, false⟩ := by
  constructor
  · rfl
  · have hrl : WhileLoopAgent.runLoop ⟨[], "gpt-4o-mini", "sp", 1⟩
        (fun _ => .ok ⟨some (.str "hi"), []⟩) okTracer "u"
        = .ok (initialMessages "sp" "u"
            ++ [assistantToMessage ⟨some (.str "hi"), []⟩], 0 + 1) := by
      rw [runLoop_okTracer]
      rw [loop_unfold_answer _ _ _ _ 0 false ⟨some (.str "hi"), []⟩
        (by simp) (by decide) rfl rfl (by decide)]
      rw [loop_unfold_stop _ _ _ _ _ _ _ (Or.inl rfl)]
    rw [run_okTracer _ _ _ _ _ hrl]
    rw [finalResult_assistant _ _ _ (by decide)]
    rfl

/-- C7 (amended): trace emission is observational for every non-failing
tracer — as long as every tracing call returns normally, the control flow
of `run`, the transcript built by the loop, and the returned value are
identical to those under the canonical non-failing tracer, whatever data the
tracer records.  (As stated over arbitrary tracer behaviour the claim fails:
see the counterexample, a raising tracer changes the outcome of `run`.) -/
theorem run_tracer_observational (agent : WhileLoopAgent)
    (model : Nat → Except String AssistantMsg) (user_message : String)
    (tracer : Tracer) (h : ∀ ev, tracer.call ev = .ok ()) :
    agent.run model tracer user_message
      = agent.run model okTracer user_message
    ∧ agent.runLoop model tracer user_message
      = agent.runLoop model okTracer user_message := by
  have hrl : agent.runLoop model tracer user_message
      = agent.runLoop model okTracer user_message := by
    unfold WhileLoopAgent.runLoop
    simp only [h, okTracer_call]
    exact loop_tracer_irrelevant agent.tools agent.max_iterations model
      tracer h ((agent.max_iterations - 0).toNat) _ 0 false (le_refl _)
  refine ⟨?_, hrl⟩
  unfold WhileLoopAgent.run
  rw [hrl]
  cases hr : agent.runLoop model okTracer user_message with
  | error e => rfl
  | ok p =>
    obtain ⟨m, i⟩ := p
    dsimp only
    rw [h]
    rfl

/-- C7 amended witness: `noopTracer` (a second, definitionally distinct
non-failing tracer) yields exactly the run of `okTracer`. -/
theorem run_tracer_observational_witness :
    WhileLoopAgent.run ⟨[], "gpt-4o-mini", "sp", 1⟩
        (fun _ => .ok ⟨some (.str "hi"), []⟩) noopTracer "u"
      = WhileLoopAgent.run ⟨[], "gpt-4o-mini", "sp", 1⟩
          (fun _ => .ok ⟨some (.str "hi"), []⟩) okTracer "u"
    ∧ WhileLoopAgent.runLoop ⟨[], "gpt-4o-mini", "sp", 1⟩
        (fun _ => .ok ⟨some (.str "hi"), []⟩) noopTracer "u"
      = WhileLoopAgent.runLoop ⟨[], "gpt-4o-mini", "sp", 1⟩
          (fun _ => .ok ⟨some (.str "hi"), []⟩) okTracer "u" :=
  run_tracer_observational ⟨[], "gpt-4o-mini", "sp", 1⟩
    (fun _ => .ok ⟨some (.str "hi"), []⟩) "u" noopTracer (fun _ => rfl)
